import Mathlib

/-!
Shallow embedding of the log-record extractor `procesar_archivo`
(src/script_seccionadora.py) of the dashboard-seccionadora-lcdc
repository, together with theorems settling the specified properties.

Modelling conventions: Python strings are lists of characters (`PyStr`);
Python floating-point values are exact rationals (no binary rounding);
the fallible conversions `int` and `float` return `Option`; the
per-line `try/except (ValueError, IndexError)` block becomes an
`Option`-valued computation, so a dropped line is `none`.
-/

/-- A Python string, modelled as its list of characters. -/
abbrev PyStr := List Char

/-- Embed a Lean string literal into the model. -/
def pyl (s : String) : PyStr := s.toList

/-- Whitespace characters removed by Python `str.strip()` (ASCII fragment). -/
def isPySpace (c : Char) : Bool :=
  c = ' ' || c = '\t' || c = '\n' || c = '\r' || c = '\x0b' || c = '\x0c'

/-- Python `s.strip()`: remove leading and trailing whitespace. -/
def pyStrip (s : PyStr) : PyStr :=
  ((s.dropWhile isPySpace).reverse.dropWhile isPySpace).reverse

/-- The characters after the first occurrence of `c`, i.e. the second
component of `s.split(c, 1)`; in `procesar_archivo` it is only reached
on lines that contain `c`. -/
def afterFirst (c : Char) : PyStr → PyStr
  | [] => []
  | x :: xs => if x = c then xs else afterFirst c xs

/-- Python `s.split(sep)` for a one-character separator: every occurrence
splits, empty fields are kept, and the empty string yields one empty
field. -/
def pySplit (sep : Char) : PyStr → List PyStr
  | [] => [[]]
  | x :: xs =>
      if x = sep then [] :: pySplit sep xs
      else
        match pySplit sep xs with
        | [] => [[x]]
        | f :: rest => (x :: f) :: rest

/-- Python `s.rsplit(sep, 1)[0]`: everything before the last occurrence
of `sep`, or `s` itself when `sep` does not occur in `s`. -/
def beforeLast (sep : Char) (s : PyStr) : PyStr :=
  if sep ∈ s then (afterFirst sep s.reverse).reverse else s

/-- The path-prefix tokens removed from the payload, in the order the
source iterates over them. -/
def trashList : List PyStr :=
  [pyl ".\\prg\\", pyl "C:\\WinCut\\prg\\", pyl ".\\", pyl "C:WinCut\\prg\\"]

/-- The prefix-stripping loop of `procesar_archivo`: each token of
`trashList` is tried in order against the current payload and removed
from its front when it matches; the loop body has no break. -/
def stripTrash (s : PyStr) : PyStr :=
  trashList.foldl (fun acc t => if t.isPrefixOf acc then acc.drop t.length else acc) s

/-- Decimal value of a digit run, ignoring grouping underscores. -/
def digitsVal (l : PyStr) : Nat :=
  l.foldl (fun n c => if c = '_' then n else n * 10 + (c.toNat - 48)) 0

/-- Number of actual digits in a digit run (underscores excluded). -/
def digitsCount (l : PyStr) : Nat := (l.filter (fun c => c ≠ '_')).length

/-- Tail of a valid Python digit run: digits, with single grouping
underscores allowed only between digits. -/
def digitsTail : PyStr → Bool
  | [] => true
  | '_' :: rest =>
      match rest with
      | [] => false
      | c :: cs => c.isDigit && digitsTail cs
  | c :: cs => c.isDigit && digitsTail cs

/-- A valid Python decimal digit run: nonempty, begins with a digit,
grouping underscores only singly and between digits. -/
def digitsOk : PyStr → Bool
  | [] => false
  | c :: cs => c.isDigit && digitsTail cs

/-- Python `int(s)` on a string: optional surrounding whitespace, an
optional sign, then a decimal digit run; `none` where `int` raises
`ValueError`. -/
def pyInt (s : PyStr) : Option Int :=
  match pyStrip s with
  | '+' :: r => if digitsOk r then some (digitsVal r) else none
  | '-' :: r => if digitsOk r then some (-(digitsVal r : Int)) else none
  | r => if digitsOk r then some (digitsVal r) else none

/-- Split a string at the first character satisfying `p`, returning the
parts before and after it, or `none` when no character satisfies `p`. -/
def splitAtFirst (p : Char → Bool) : PyStr → Option (PyStr × PyStr)
  | [] => none
  | x :: xs =>
      if p x then some ([], xs)
      else
        match splitAtFirst p xs with
        | none => none
        | some (a, b) => some (x :: a, b)

/-- Shape check for the mantissa of a Python float literal: a digit run,
optionally with a decimal point before, inside or after it. -/
def mantissaOk (s : PyStr) : Bool :=
  match splitAtFirst (fun c => c = '.') s with
  | none => digitsOk s
  | some (a, b) =>
      (decide (a = []) || digitsOk a) && (decide (b = []) || digitsOk b) &&
        !(decide (a = []) && decide (b = []))

/-- Numerator and decimal scale of a float-literal mantissa: the pair
`(n, k)` denotes the value `n / 10 ^ k`. -/
def mantissaParts (s : PyStr) : Nat × Nat :=
  match splitAtFirst (fun c => c = '.') s with
  | none => (digitsVal s, 0)
  | some (a, b) => (digitsVal a * 10 ^ digitsCount b + digitsVal b, digitsCount b)

/-- Shape check for the exponent of a Python float literal. -/
def expOk (s : PyStr) : Bool :=
  match s with
  | '+' :: r => digitsOk r
  | '-' :: r => digitsOk r
  | r => digitsOk r

/-- Signed value of a float-literal exponent. -/
def expVal (s : PyStr) : Int :=
  match s with
  | '+' :: r => (digitsVal r : Int)
  | '-' :: r => -(digitsVal r : Int)
  | r => (digitsVal r : Int)

/-- The exact rational `sg * n * 10 ^ ex / 10 ^ k`, assembled with
`Rat.divInt` over integer arithmetic. -/
def decRat (sg : Int) (n k : Nat) (ex : Int) : ℚ :=
  if 0 ≤ ex then Rat.divInt (sg * n * 10 ^ ex.toNat) (10 ^ k)
  else Rat.divInt (sg * n) (10 ^ k * 10 ^ (-ex).toNat)

/-- Python `float(s)` restricted to finite decimal literals, valued as an
exact rational; the non-finite spellings `inf` and `nan` are outside the
model and map to `none`, as does every string where `float` raises. -/
def pyFloat (s : PyStr) : Option ℚ :=
  let t := pyStrip s
  let su : Int × PyStr :=
    match t with
    | '+' :: r => (1, r)
    | '-' :: r => (-1, r)
    | r => (1, r)
  match splitAtFirst (fun c => c = 'e' || c = 'E') su.2 with
  | none =>
      if mantissaOk su.2 then
        some (decRat su.1 (mantissaParts su.2).1 (mantissaParts su.2).2 0)
      else none
  | some (m, e) =>
      if mantissaOk m && expOk e then
        some (decRat su.1 (mantissaParts m).1 (mantissaParts m).2 (expVal e))
      else none

/-- Decimal digit characters of a natural number. -/
def natDigits (n : Nat) : PyStr := Nat.toDigits 10 n

/-- Python zero-padded integer formatting to width `w` (the `0wd` format
spec): a minus sign for negatives, then zeros, then the digits. -/
def padInt (w : Nat) (n : Int) : PyStr :=
  if n < 0 then
    '-' :: List.replicate (w - (natDigits n.natAbs).length - 1) '0' ++ natDigits n.natAbs
  else
    List.replicate (w - (natDigits n.natAbs).length) '0' ++ natDigits n.natAbs

/-- One row appended to `datos` by `procesar_archivo`. -/
structure CutRecord where
  nombre_optimizacion : PyStr
  job_key : PyStr
  fecha_proceso_str : PyStr
  hora_inicio_str : PyStr
  hora_fin_str : PyStr
  largo_mm : ℚ
  ancho_mm : ℚ
  espesor_mm : ℚ
  cantidad_placas : Int
  deriving DecidableEq, Repr

/-- The body of the per-line `try` block after the payload has been split
into comma fields: the length guard, the name and key derivations, the
numeric conversions and the row construction.  Any failing conversion
(`ValueError` in the source) yields `none`. -/
def mkRecord (parts : List PyStr) : Option CutRecord :=
  if 17 ≤ parts.length then
    let nombre_opt := pyStrip (parts.getD 0 [])
    let job_key_preciso := beforeLast '.' nombre_opt
    do
      let y ← pyInt (parts.getD 8 [])
      let mo ← pyInt (parts.getD 10 [])
      let d ← pyInt (parts.getD 9 [])
      let hi ← pyInt (parts.getD 5 [])
      let mi ← pyInt (parts.getD 4 [])
      let si ← pyInt (parts.getD 7 [])
      let hf ← pyInt (parts.getD 12 [])
      let mf ← pyInt (parts.getD 11 [])
      let sf ← pyInt (parts.getD 14 [])
      let largo ← pyFloat (parts.getD 1 [])
      let ancho ← pyFloat (parts.getD 2 [])
      let espesor ← pyFloat (parts.getD 3 [])
      let placas ← pyInt (parts.getD 16 [])
      pure {
        nombre_optimizacion := nombre_opt
        job_key := job_key_preciso
        fecha_proceso_str := padInt 4 y ++ '-' :: padInt 2 mo ++ '-' :: padInt 2 d
        hora_inicio_str := padInt 2 hi ++ ':' :: padInt 2 mi ++ ':' :: padInt 2 si
        hora_fin_str := padInt 2 hf ++ ':' :: padInt 2 mf ++ ':' :: padInt 2 sf
        largo_mm := largo
        ancho_mm := ancho
        espesor_mm := espesor
        cantidad_placas := placas }
  else none

/-- The comma fields of one log line: the payload after the first equals
sign, with path prefixes stripped, split on commas. -/
def partsOf (line : PyStr) : List PyStr :=
  pySplit ',' (stripTrash (afterFirst '=' (pyStrip line)))

/-- One iteration of the line loop of `procesar_archivo`: strip the line,
skip it when empty or without an equals sign, otherwise run the guarded
record construction; `none` means the line contributes no row. -/
def procesarLinea (line : PyStr) : Option CutRecord :=
  if pyStrip line = [] ∨ '=' ∉ pyStrip line then none
  else mkRecord (partsOf line)

/-- Embedding of `procesar_archivo` on the sequence of lines of the file: the rows of
the resulting data frame, in input order. -/
def procesarArchivo (lines : List PyStr) : List CutRecord :=
  lines.filterMap procesarLinea

/-- All thirteen numeric conversions performed by the record
construction succeed, in the reading order of the source dictionary. -/
def convSucceed (parts : List PyStr) : Prop :=
  (pyInt (parts.getD 8 [])).isSome ∧ (pyInt (parts.getD 10 [])).isSome ∧
  (pyInt (parts.getD 9 [])).isSome ∧ (pyInt (parts.getD 5 [])).isSome ∧
  (pyInt (parts.getD 4 [])).isSome ∧ (pyInt (parts.getD 7 [])).isSome ∧
  (pyInt (parts.getD 12 [])).isSome ∧ (pyInt (parts.getD 11 [])).isSome ∧
  (pyInt (parts.getD 14 [])).isSome ∧ (pyFloat (parts.getD 1 [])).isSome ∧
  (pyFloat (parts.getD 2 [])).isSome ∧ (pyFloat (parts.getD 3 [])).isSome ∧
  (pyInt (parts.getD 16 [])).isSome

instance instDecConvSucceed (parts : List PyStr) : Decidable (convSucceed parts) := by
  unfold convSucceed
  infer_instance

/-- Spec-side predicate, after the claim's words: the line is non-empty
after trimming, contains an equals sign, splits into at least 17 comma
fields after prefix stripping, and every required numeric conversion at
the documented positions succeeds. -/
def lineValid (line : PyStr) : Prop :=
  pyStrip line ≠ [] ∧ '=' ∈ pyStrip line ∧
    17 ≤ (partsOf line).length ∧ convSucceed (partsOf line)

instance instDecLineValid (line : PyStr) : Decidable (lineValid line) := by
  unfold lineValid
  infer_instance

/-- Modelled from the spec's words, for comparison with `stripTrash`:
strip only the first matching token of `trashList`, or none. -/
def stripTrashSpec (s : PyStr) : PyStr :=
  match trashList.find? (fun t => t.isPrefixOf s) with
  | some t => s.drop t.length
  | none => s

/-- The field positions the record construction reads. -/
def usedIdx : List Nat := [0, 1, 2, 3, 4, 5, 7, 8, 9, 10, 11, 12, 14, 16]

/-- Placeholder row, used only as the default of `Option.getD`. -/
def emptyRecord : CutRecord :=
  { nombre_optimizacion := []
    job_key := []
    fecha_proceso_str := []
    hora_inicio_str := []
    hora_fin_str := []
    largo_mm := 0
    ancho_mm := 0
    espesor_mm := 0
    cantidad_placas := 0 }

/-- Input line of the C2 counterexample: month 32, day field 13 swap
aside, it carries month 13, day 32, hour 25, minute 75, second 61. -/
def c2line : PyStr := pyl "PRG=NAME.301,1,2,3,75,25,0,0,2025,32,13,75,25,0,61,0,5"

/-- The row `procesar_archivo` produces for `c2line`. -/
def c2rec : CutRecord :=
  { nombre_optimizacion := pyl "NAME.301"
    job_key := pyl "NAME"
    fecha_proceso_str := pyl "2025-13-32"
    hora_inicio_str := pyl "25:75:00"
    hora_fin_str := pyl "25:75:61"
    largo_mm := 1
    ancho_mm := 2
    espesor_mm := 3
    cantidad_placas := 5 }

/-- Input line of the C3 witness. -/
def c3line : PyStr := pyl "LOG=JOB.9,10.5,20,30,1,2,0,3,1999,28,2,4,5,0,6,0,7"

/-- Input line of the C5 witness, the spec's own example shape: prefix
`.\prg\` is stripped and the name keeps an internal dot. -/
def c5line : PyStr :=
  pyl "PRG=.\\prg\\JOB_A.2.100,1200,600,18,0,10,0,5,2025,15,8,20,12,0,25,0,50"

/-- The row `procesar_archivo` produces for `c5line`. -/
def c5rec : CutRecord :=
  { nombre_optimizacion := pyl "JOB_A.2.100"
    job_key := pyl "JOB_A.2"
    fecha_proceso_str := pyl "2025-08-15"
    hora_inicio_str := pyl "10:00:05"
    hora_fin_str := pyl "12:20:25"
    largo_mm := 1200
    ancho_mm := 600
    espesor_mm := 18
    cantidad_placas := 50 }

/-- Input line of the spec's worked example for C7. -/
def c7line : PyStr := pyl "PRG=ABC123.301,1200,600,18,0,10,0,5,2025,15,8,20,12,0,25,0,50"

/-- The row `procesar_archivo` produces for `c7line`. -/
def c7rec : CutRecord :=
  { nombre_optimizacion := pyl "ABC123.301"
    job_key := pyl "ABC123"
    fecha_proceso_str := pyl "2025-08-15"
    hora_inicio_str := pyl "10:00:05"
    hora_fin_str := pyl "12:20:25"
    largo_mm := 1200
    ancho_mm := 600
    espesor_mm := 18
    cantidad_placas := 50 }

/-- First input line of the C10 witness (17 fields). -/
def c10lineA : PyStr := pyl "A=N.1,1,2,3,4,5,6,7,2025,9,10,11,12,13,14,15,16"

/-- Second input line of the C10 witness: same used fields, different
fields 6, 13 and 15, and an 18th field appended. -/
def c10lineB : PyStr := pyl "B=N.1,1,2,3,4,5,99,7,2025,9,10,11,12,77,14,88,16,EXTRA"

/-- Monadic bind on `Option` produces `some` exactly when both
stages do. -/
lemma optBindEqSome {α β : Type} {o : Option α} {g : α → Option β} {y : β} :
    o >>= g = some y ↔ ∃ v, o = some v ∧ g v = some y := by
  cases o <;> simp

/-- Forward evaluation of the record construction: when the length guard
holds and every conversion succeeds, `mkRecord` returns exactly the row
the source builds. -/
lemma mkRecord_build {parts : List PyStr}
    {y mo d hi mi si hf mf sf : Int} {largo ancho espesor : ℚ} {placas : Int}
    (hlen : 17 ≤ parts.length)
    (h8 : pyInt (parts.getD 8 []) = some y)
    (h10 : pyInt (parts.getD 10 []) = some mo)
    (h9 : pyInt (parts.getD 9 []) = some d)
    (h5 : pyInt (parts.getD 5 []) = some hi)
    (h4 : pyInt (parts.getD 4 []) = some mi)
    (h7 : pyInt (parts.getD 7 []) = some si)
    (h12 : pyInt (parts.getD 12 []) = some hf)
    (h11 : pyInt (parts.getD 11 []) = some mf)
    (h14 : pyInt (parts.getD 14 []) = some sf)
    (hp1 : pyFloat (parts.getD 1 []) = some largo)
    (hp2 : pyFloat (parts.getD 2 []) = some ancho)
    (hp3 : pyFloat (parts.getD 3 []) = some espesor)
    (h16 : pyInt (parts.getD 16 []) = some placas) :
    mkRecord parts = some {
      nombre_optimizacion := pyStrip (parts.getD 0 [])
      job_key := beforeLast '.' (pyStrip (parts.getD 0 []))
      fecha_proceso_str := padInt 4 y ++ '-' :: padInt 2 mo ++ '-' :: padInt 2 d
      hora_inicio_str := padInt 2 hi ++ ':' :: padInt 2 mi ++ ':' :: padInt 2 si
      hora_fin_str := padInt 2 hf ++ ':' :: padInt 2 mf ++ ':' :: padInt 2 sf
      largo_mm := largo
      ancho_mm := ancho
      espesor_mm := espesor
      cantidad_placas := placas } := by
  unfold mkRecord
  rw [if_pos hlen]
  simp only [h8, h10, h9, h5, h4, h7, h12, h11, h14, hp1, hp2, hp3, h16,
    Option.bind_eq_bind, Option.some_bind, Option.pure_def]

/-- Destruction of a successful record construction: the length guard
held, every conversion succeeded, and the name and key columns are the
stripped field 0 and its last-dot truncation. -/
lemma mkRecord_dest {parts : List PyStr} {r : CutRecord}
    (h : mkRecord parts = some r) :
    17 ≤ parts.length ∧
    r.nombre_optimizacion = pyStrip (parts.getD 0 []) ∧
    r.job_key = beforeLast '.' r.nombre_optimizacion ∧
    convSucceed parts := by
  unfold mkRecord at h
  split at h
  case isTrue hlen =>
    obtain ⟨y, h8, h⟩ := optBindEqSome.mp h
    obtain ⟨mo, h10, h⟩ := optBindEqSome.mp h
    obtain ⟨d, h9, h⟩ := optBindEqSome.mp h
    obtain ⟨hi, h5, h⟩ := optBindEqSome.mp h
    obtain ⟨mi, h4, h⟩ := optBindEqSome.mp h
    obtain ⟨si, h7, h⟩ := optBindEqSome.mp h
    obtain ⟨hf, h12, h⟩ := optBindEqSome.mp h
    obtain ⟨mf, h11, h⟩ := optBindEqSome.mp h
    obtain ⟨sf, h14, h⟩ := optBindEqSome.mp h
    obtain ⟨largo, hp1, h⟩ := optBindEqSome.mp h
    obtain ⟨ancho, hp2, h⟩ := optBindEqSome.mp h
    obtain ⟨espesor, hp3, h⟩ := optBindEqSome.mp h
    obtain ⟨placas, h16, h⟩ := optBindEqSome.mp h
    rw [Option.pure_def, Option.some.injEq] at h
    subst h
    refine ⟨hlen, rfl, rfl, ?_⟩
    exact ⟨Option.isSome_iff_exists.mpr ⟨_, h8⟩, Option.isSome_iff_exists.mpr ⟨_, h10⟩,
      Option.isSome_iff_exists.mpr ⟨_, h9⟩, Option.isSome_iff_exists.mpr ⟨_, h5⟩,
      Option.isSome_iff_exists.mpr ⟨_, h4⟩, Option.isSome_iff_exists.mpr ⟨_, h7⟩,
      Option.isSome_iff_exists.mpr ⟨_, h12⟩, Option.isSome_iff_exists.mpr ⟨_, h11⟩,
      Option.isSome_iff_exists.mpr ⟨_, h14⟩, Option.isSome_iff_exists.mpr ⟨_, hp1⟩,
      Option.isSome_iff_exists.mpr ⟨_, hp2⟩, Option.isSome_iff_exists.mpr ⟨_, hp3⟩,
      Option.isSome_iff_exists.mpr ⟨_, h16⟩⟩
  case isFalse => simp at h

/-- The record construction succeeds exactly when the length guard holds
and every numeric conversion succeeds. -/
lemma mkRecord_isSome_iff (parts : List PyStr) :
    (mkRecord parts).isSome ↔ 17 ≤ parts.length ∧ convSucceed parts := by
  constructor
  · intro h
    obtain ⟨r, hr⟩ := Option.isSome_iff_exists.mp h
    obtain ⟨hlen, -, -, hconv⟩ := mkRecord_dest hr
    exact ⟨hlen, hconv⟩
  · rintro ⟨hlen, c8, c10, c9, c5, c4, c7, c12, c11, c14, cp1, cp2, cp3, c16⟩
    obtain ⟨y, h8⟩ := Option.isSome_iff_exists.mp c8
    obtain ⟨mo, h10⟩ := Option.isSome_iff_exists.mp c10
    obtain ⟨d, h9⟩ := Option.isSome_iff_exists.mp c9
    obtain ⟨hi, h5⟩ := Option.isSome_iff_exists.mp c5
    obtain ⟨mi, h4⟩ := Option.isSome_iff_exists.mp c4
    obtain ⟨si, h7⟩ := Option.isSome_iff_exists.mp c7
    obtain ⟨hf, h12⟩ := Option.isSome_iff_exists.mp c12
    obtain ⟨mf, h11⟩ := Option.isSome_iff_exists.mp c11
    obtain ⟨sf, h14⟩ := Option.isSome_iff_exists.mp c14
    obtain ⟨largo, hp1⟩ := Option.isSome_iff_exists.mp cp1
    obtain ⟨ancho, hp2⟩ := Option.isSome_iff_exists.mp cp2
    obtain ⟨espesor, hp3⟩ := Option.isSome_iff_exists.mp cp3
    obtain ⟨placas, h16⟩ := Option.isSome_iff_exists.mp c16
    rw [mkRecord_build hlen h8 h10 h9 h5 h4 h7 h12 h11 h14 hp1 hp2 hp3 h16]
    rfl

/-- A line that produces a row passed both guards and its comma fields
produced the row. -/
lemma procesarLinea_eq_some {line : PyStr} {r : CutRecord}
    (h : procesarLinea line = some r) :
    mkRecord (partsOf line) = some r ∧ pyStrip line ≠ [] ∧ '=' ∈ pyStrip line := by
  unfold procesarLinea at h
  split at h
  · cases h
  · next hcond =>
      push_neg at hcond
      exact ⟨h, hcond.1, hcond.2⟩

/-- Decomposition at the first occurrence: a string containing `c` is the
part before the first `c`, then `c`, then `afterFirst c`. -/
lemma afterFirst_decomp {c : Char} {s : PyStr} (h : c ∈ s) :
    ∃ u, s = u ++ c :: afterFirst c s ∧ c ∉ u := by
  induction s with
  | nil => cases h
  | cons x xs ih =>
      by_cases hx : x = c
      · subst hx
        exact ⟨[], by simp [afterFirst], by simp⟩
      · have hmem : c ∈ xs := by
          rcases List.mem_cons.mp h with h1 | h2
          · exact absurd h1.symm hx
          · exact h2
        obtain ⟨u, hu, hcu⟩ := ih hmem
        refine ⟨x :: u, ?_, ?_⟩
        · simpa [afterFirst, hx] using congrArg (x :: ·) hu
        · simp only [List.mem_cons]
          rintro (h1 | h2)
          · exact hx h1.symm
          · exact hcu h2

/-- When `c` does not occur, `beforeLast` is the identity. -/
lemma beforeLast_not_mem {c : Char} {s : PyStr} (h : c ∉ s) :
    beforeLast c s = s := by
  rw [beforeLast, if_neg h]

/-- Decomposition at the last occurrence: a string containing `c` is
`beforeLast c`, then `c`, then a tail free of `c`. -/
lemma beforeLast_decomp {c : Char} {s : PyStr} (h : c ∈ s) :
    ∃ t, s = beforeLast c s ++ c :: t ∧ c ∉ t := by
  have hrev : c ∈ s.reverse := List.mem_reverse.mpr h
  obtain ⟨u, hu, hcu⟩ := afterFirst_decomp hrev
  refine ⟨u.reverse, ?_, fun hm => hcu (List.mem_reverse.mp hm)⟩
  rw [beforeLast, if_pos h]
  calc s = s.reverse.reverse := (List.reverse_reverse s).symm
    _ = (u ++ c :: afterFirst c s.reverse).reverse := by rw [← hu]
    _ = (afterFirst c s.reverse).reverse ++ c :: u.reverse := by simp

/-- The truncation `beforeLast c s` is always an initial segment of `s`. -/
lemma beforeLast_initialSegment (c : Char) (s : PyStr) : beforeLast c s <+: s := by
  by_cases h : c ∈ s
  · obtain ⟨t, ht, -⟩ := beforeLast_decomp h
    exact ⟨c :: t, ht.symm⟩
  · rw [beforeLast_not_mem h]

/-- Claim C1 (counterexample): the claim that at most one token of the
fixed priority order is ever stripped is false: on the payload
`.\prg\.\AB.1` the loop strips `.\prg\` and then also `.\`, while the
strip-only-the-first-match reading of the spec would leave `.\AB.1`. -/
theorem c1_counterexample :
    stripTrash (pyl ".\\prg\\.\\AB.1") = pyl "AB.1" ∧
    stripTrashSpec (pyl ".\\prg\\.\\AB.1") = pyl ".\\AB.1" ∧
    pyl "AB.1" ≠ pyl ".\\AB.1" := by decide

/-- Claim C1 (amended): each of the four tokens is tried in the fixed
order against the current payload and stripped when it matches, so
several tokens can be stripped in sequence; a payload matching none of
the tokens passes through unchanged. -/
theorem c1_amended_strip (s : PyStr)
    (h1 : ∀ t ∈ trashList, t.isPrefixOf s = false) :
    stripTrash s = s ∧ stripTrash (pyl ".\\prg\\.\\AB.1") = pyl "AB.1" := by
  have e1 : ¬ pyl ".\\prg\\" <+: s := by
    simp [← List.isPrefixOf_iff_prefix, h1 _ (by simp [trashList] : pyl ".\\prg\\" ∈ trashList)]
  have e2 : ¬ pyl "C:\\WinCut\\prg\\" <+: s := by
    simp [← List.isPrefixOf_iff_prefix,
      h1 _ (by simp [trashList] : pyl "C:\\WinCut\\prg\\" ∈ trashList)]
  have e3 : ¬ pyl ".\\" <+: s := by
    simp [← List.isPrefixOf_iff_prefix, h1 _ (by simp [trashList] : pyl ".\\" ∈ trashList)]
  have e4 : ¬ pyl "C:WinCut\\prg\\" <+: s := by
    simp [← List.isPrefixOf_iff_prefix,
      h1 _ (by simp [trashList] : pyl "C:WinCut\\prg\\" ∈ trashList)]
  refine ⟨?_, by decide⟩
  simp [stripTrash, trashList, e1, e2, e3, e4]

/-- Claim C1 (witness): the amended theorem applied to the payload `ABC`,
which matches no token. -/
theorem c1_witness :
    (∀ t ∈ trashList, t.isPrefixOf (pyl "ABC") = false) ∧
    stripTrash (pyl "ABC") = pyl "ABC" ∧
    stripTrash (pyl ".\\prg\\.\\AB.1") = pyl "AB.1" := by
  have h := c1_amended_strip (pyl "ABC") (by decide)
  exact ⟨by decide, h.1, h.2⟩

/-- Claim C2 (counterexample): a line whose date and time fields parse as
integers but are far out of calendar range is not rejected: the extractor
emits a record whose date column reads `2025-13-32` and whose start time
reads `25:75:00`. -/
theorem c2_counterexample :
    procesarLinea c2line = some c2rec ∧
    c2rec.fecha_proceso_str = pyl "2025-13-32" ∧
    c2rec.hora_inicio_str = pyl "25:75:00" := by decide

/-- Claim C2 (amended): the extractor performs no calendar or clock range
validation: whenever the length guard holds and all thirteen numeric
conversions succeed, a record is emitted, with the integer components
zero-padded verbatim; only conversion failures drop a line. -/
theorem c2_amended_no_range_check (parts : List PyStr)
    (hlen : 17 ≤ parts.length) (hconv : convSucceed parts) :
    (mkRecord parts).isSome :=
  (mkRecord_isSome_iff parts).mpr ⟨hlen, hconv⟩

/-- Claim C2 (witness): the amended theorem applied to the out-of-range
fields of `c2line`. -/
theorem c2_witness :
    17 ≤ (partsOf c2line).length ∧ convSucceed (partsOf c2line) ∧
    (mkRecord (partsOf c2line)).isSome :=
  ⟨by decide, by decide, c2_amended_no_range_check _ (by decide) (by decide)⟩

/-- Claim C3: on a line that passes both guards, the emitted row reads
its columns from the documented field positions: the date from fields 8
(year), 10 (month), 9 (day) zero-padded in year-month-day order, the
start time from fields 5, 4, 7, the end time from fields 12, 11, 14,
the three dimensions as floats from fields 1, 2, 3, and the plate count
as an integer from field 16. -/
theorem c3_field_positions (line : PyStr)
    {y mo d hi mi si hf mf sf : Int} {largo ancho espesor : ℚ} {placas : Int}
    (hne : pyStrip line ≠ []) (hmem : '=' ∈ pyStrip line)
    (hlen : 17 ≤ (partsOf line).length)
    (h8 : pyInt ((partsOf line).getD 8 []) = some y)
    (h10 : pyInt ((partsOf line).getD 10 []) = some mo)
    (h9 : pyInt ((partsOf line).getD 9 []) = some d)
    (h5 : pyInt ((partsOf line).getD 5 []) = some hi)
    (h4 : pyInt ((partsOf line).getD 4 []) = some mi)
    (h7 : pyInt ((partsOf line).getD 7 []) = some si)
    (h12 : pyInt ((partsOf line).getD 12 []) = some hf)
    (h11 : pyInt ((partsOf line).getD 11 []) = some mf)
    (h14 : pyInt ((partsOf line).getD 14 []) = some sf)
    (hp1 : pyFloat ((partsOf line).getD 1 []) = some largo)
    (hp2 : pyFloat ((partsOf line).getD 2 []) = some ancho)
    (hp3 : pyFloat ((partsOf line).getD 3 []) = some espesor)
    (h16 : pyInt ((partsOf line).getD 16 []) = some placas) :
    procesarLinea line = some {
      nombre_optimizacion := pyStrip ((partsOf line).getD 0 [])
      job_key := beforeLast '.' (pyStrip ((partsOf line).getD 0 []))
      fecha_proceso_str := padInt 4 y ++ '-' :: padInt 2 mo ++ '-' :: padInt 2 d
      hora_inicio_str := padInt 2 hi ++ ':' :: padInt 2 mi ++ ':' :: padInt 2 si
      hora_fin_str := padInt 2 hf ++ ':' :: padInt 2 mf ++ ':' :: padInt 2 sf
      largo_mm := largo
      ancho_mm := ancho
      espesor_mm := espesor
      cantidad_placas := placas } := by
  unfold procesarLinea
  rw [if_neg (by push_neg; exact ⟨hne, hmem⟩)]
  exact mkRecord_build hlen h8 h10 h9 h5 h4 h7 h12 h11 h14 hp1 hp2 hp3 h16

/-- Claim C3 (witness): the theorem applied to `c3line`, whose fields
reassemble to the date 1999-02-28, times 02:01:03 and 05:04:06, the
dimensions 10.5, 20 and 30, and 7 plates. -/
theorem c3_witness :
    pyInt ((partsOf c3line).getD 8 []) = some 1999 ∧
    procesarLinea c3line = some {
      nombre_optimizacion := pyl "JOB.9"
      job_key := pyl "JOB"
      fecha_proceso_str := pyl "1999-02-28"
      hora_inicio_str := pyl "02:01:03"
      hora_fin_str := pyl "05:04:06"
      largo_mm := Rat.divInt 21 2
      ancho_mm := 20
      espesor_mm := 30
      cantidad_placas := 7 } := by
  refine ⟨by decide, ?_⟩
  have h := c3_field_positions c3line (by decide) (by decide) (by decide)
    (by decide : pyInt ((partsOf c3line).getD 8 []) = some 1999)
    (by decide : pyInt ((partsOf c3line).getD 10 []) = some 2)
    (by decide : pyInt ((partsOf c3line).getD 9 []) = some 28)
    (by decide : pyInt ((partsOf c3line).getD 5 []) = some 2)
    (by decide : pyInt ((partsOf c3line).getD 4 []) = some 1)
    (by decide : pyInt ((partsOf c3line).getD 7 []) = some 3)
    (by decide : pyInt ((partsOf c3line).getD 12 []) = some 5)
    (by decide : pyInt ((partsOf c3line).getD 11 []) = some 4)
    (by decide : pyInt ((partsOf c3line).getD 14 []) = some 6)
    (by decide : pyFloat ((partsOf c3line).getD 1 []) = some (Rat.divInt 21 2))
    (by decide : pyFloat ((partsOf c3line).getD 2 []) = some 20)
    (by decide : pyFloat ((partsOf c3line).getD 3 []) = some 30)
    (by decide : pyInt ((partsOf c3line).getD 16 []) = some 7)
  exact h.trans (by decide)

/-- Claim C4: a row is emitted for a line exactly when the line is
non-empty after trimming, contains an equals sign, splits into at least
17 comma fields after prefix stripping, and all required numeric
conversions succeed; in every other case the line contributes nothing
(and, the model being total, no exception reaches the caller). -/
theorem c4_emission_iff (line : PyStr) :
    (procesarLinea line).isSome ↔ lineValid line := by
  unfold procesarLinea lineValid
  by_cases h1 : pyStrip line = [] ∨ '=' ∉ pyStrip line
  · rw [if_pos h1]
    simp only [Option.isSome_none, Bool.false_eq_true, false_iff]
    rintro ⟨hne, hmem, -⟩
    rcases h1 with h | h
    · exact hne h
    · exact h hmem
  · rw [if_neg h1]
    push_neg at h1
    rw [mkRecord_isSome_iff]
    constructor
    · rintro ⟨hlen, hconv⟩
      exact ⟨h1.1, h1.2, hlen, hconv⟩
    · rintro ⟨-, -, hlen, hconv⟩
      exact ⟨hlen, hconv⟩

/-- Claim C5: in every emitted row the key column is the name column with
the segment after the last dot removed: they are equal when the name has
no dot, and otherwise the name is the key, a dot, and a dot-free tail,
so internal dots of the key are retained. -/
theorem c5_job_key (line : PyStr) (r : CutRecord)
    (h : procesarLinea line = some r) :
    r.job_key = beforeLast '.' r.nombre_optimizacion ∧
    ('.' ∉ r.nombre_optimizacion → r.job_key = r.nombre_optimizacion) ∧
    ('.' ∈ r.nombre_optimizacion →
      ∃ t, r.nombre_optimizacion = r.job_key ++ '.' :: t ∧ '.' ∉ t) := by
  obtain ⟨hmk, -, -⟩ := procesarLinea_eq_some h
  obtain ⟨-, -, hkey, -⟩ := mkRecord_dest hmk
  refine ⟨hkey, fun hn => ?_, fun hm => ?_⟩
  · rw [hkey, beforeLast_not_mem hn]
  · obtain ⟨t, ht, hnt⟩ := beforeLast_decomp hm
    refine ⟨t, ?_, hnt⟩
    rw [hkey]
    exact ht

/-- Claim C5 (witness): the theorem applied to `c5line`; only the last
dot segment `100` is removed and the internal dot survives. -/
theorem c5_witness :
    procesarLinea c5line = some c5rec ∧
    c5rec.job_key = beforeLast '.' c5rec.nombre_optimizacion ∧
    c5rec.nombre_optimizacion = c5rec.job_key ++ '.' :: pyl "100" := by
  have h := c5_job_key c5line c5rec (by decide)
  exact ⟨by decide, h.1, by decide⟩

/-- Claim C6: a batch of N lines of which M are invalid yields exactly
N - M rows (stated additively), and the output is the per-line result of
each valid line, in input order. -/
theorem c6_batch (lines : List PyStr) :
    (procesarArchivo lines).length
        + lines.countP (fun l => (procesarLinea l).isNone) = lines.length ∧
    procesarArchivo lines =
      (lines.filter (fun l => (procesarLinea l).isSome)).map
        (fun l => (procesarLinea l).getD emptyRecord) := by
  induction lines with
  | nil => simp [procesarArchivo]
  | cons l ls ih =>
      obtain ⟨ih1, ih2⟩ := ih
      unfold procesarArchivo at ih1 ih2 ⊢
      cases hl : procesarLinea l with
      | none =>
          refine ⟨?_, ?_⟩
          · simp [List.filterMap_cons, hl, List.countP_cons]
            omega
          · simp [List.filterMap_cons, List.filter_cons, hl, ih2]
      | some r =>
          refine ⟨?_, ?_⟩
          · simp [List.filterMap_cons, hl, List.countP_cons]
            omega
          · simp [List.filterMap_cons, List.filter_cons, hl, ih2]

/-- Claim C7: on the spec's example payload the extraction of the single
line yields exactly one row, with name `ABC123.301`, key `ABC123`,
dimensions 1200, 600 and 18, and 50 plates. -/
theorem c7_example :
    procesarArchivo [c7line] = [c7rec] ∧
    c7rec.nombre_optimizacion = pyl "ABC123.301" ∧
    c7rec.job_key = pyl "ABC123" ∧
    c7rec.largo_mm = 1200 ∧ c7rec.ancho_mm = 600 ∧ c7rec.espesor_mm = 18 ∧
    c7rec.cantidad_placas = 50 := by decide

/-- Claim C8: in every row of any extraction run the key column is an
initial segment of the name column, and equals it when the name contains
no dot. -/
theorem c8_key_prefix_inv (lines : List PyStr) (r : CutRecord)
    (h : r ∈ procesarArchivo lines) :
    r.job_key <+: r.nombre_optimizacion ∧
    ('.' ∉ r.nombre_optimizacion → r.job_key = r.nombre_optimizacion) := by
  unfold procesarArchivo at h
  obtain ⟨l, -, hl⟩ := List.mem_filterMap.mp h
  obtain ⟨hmk, -, -⟩ := procesarLinea_eq_some hl
  obtain ⟨-, -, hkey, -⟩ := mkRecord_dest hmk
  refine ⟨?_, fun hn => by rw [hkey, beforeLast_not_mem hn]⟩
  rw [hkey]
  exact beforeLast_initialSegment '.' r.nombre_optimizacion

/-- Claim C8 (witness): the invariant applied to the run on the single
line of the C5 example. -/
theorem c8_witness :
    c5rec ∈ procesarArchivo [c5line] ∧
    c5rec.job_key <+: c5rec.nombre_optimizacion := by
  refine ⟨by decide, ?_⟩
  exact (c8_key_prefix_inv [c5line] c5rec (by decide)).1

/-- Claim C9: the key derivation (drop the segment after the last dot)
is idempotent as soon as its first application leaves no dot: reapplying
`beforeLast` then changes nothing. -/
theorem c9_job_key_idempotent (x : PyStr) (h : '.' ∉ beforeLast '.' x) :
    beforeLast '.' (beforeLast '.' x) = beforeLast '.' x :=
  beforeLast_not_mem h

/-- Claim C9 (witness): the idempotence theorem applied to `AB.1`. -/
theorem c9_witness :
    '.' ∉ beforeLast '.' (pyl "AB.1") ∧
    beforeLast '.' (beforeLast '.' (pyl "AB.1")) = beforeLast '.' (pyl "AB.1") :=
  ⟨by decide, c9_job_key_idempotent (pyl "AB.1") (by decide)⟩

/-- Claim C10: noninterference of the unused fields: two lines that pass
the shape guards and agree on the fields at the read positions 0-5, 7-12,
14 and 16 are processed identically, whatever their other fields (6, 13,
15, or any beyond 16) contain; in particular extra trailing fields never
change the result. -/
theorem c10_unused_fields (l1 l2 : PyStr)
    (hne1 : pyStrip l1 ≠ []) (hmem1 : '=' ∈ pyStrip l1)
    (hne2 : pyStrip l2 ≠ []) (hmem2 : '=' ∈ pyStrip l2)
    (hlen1 : 17 ≤ (partsOf l1).length) (hlen2 : 17 ≤ (partsOf l2).length)
    (hagree : ∀ i ∈ usedIdx, (partsOf l1).getD i [] = (partsOf l2).getD i []) :
    procesarLinea l1 = procesarLinea l2 := by
  have e0 := hagree 0 (by simp [usedIdx])
  have e1 := hagree 1 (by simp [usedIdx])
  have e2 := hagree 2 (by simp [usedIdx])
  have e3 := hagree 3 (by simp [usedIdx])
  have e4 := hagree 4 (by simp [usedIdx])
  have e5 := hagree 5 (by simp [usedIdx])
  have e7 := hagree 7 (by simp [usedIdx])
  have e8 := hagree 8 (by simp [usedIdx])
  have e9 := hagree 9 (by simp [usedIdx])
  have e10 := hagree 10 (by simp [usedIdx])
  have e11 := hagree 11 (by simp [usedIdx])
  have e12 := hagree 12 (by simp [usedIdx])
  have e14 := hagree 14 (by simp [usedIdx])
  have e16 := hagree 16 (by simp [usedIdx])
  unfold procesarLinea
  rw [if_neg (by push_neg; exact ⟨hne1, hmem1⟩), if_neg (by push_neg; exact ⟨hne2, hmem2⟩)]
  unfold mkRecord
  rw [if_pos hlen1, if_pos hlen2]
  rw [e0, e1, e2, e3, e4, e5, e7, e8, e9, e10, e11, e12, e14, e16]

/-- Claim C10 (witness): the noninterference theorem applied to two
concrete lines differing only in unused fields; the 18-field line is
still accepted and both lines produce the same row. -/
theorem c10_witness :
    (∀ i ∈ usedIdx, (partsOf c10lineA).getD i [] = (partsOf c10lineB).getD i []) ∧
    (partsOf c10lineA).getD 6 [] ≠ (partsOf c10lineB).getD 6 [] ∧
    (partsOf c10lineB).length = 18 ∧
    (procesarLinea c10lineB).isSome = true ∧
    procesarLinea c10lineA = procesarLinea c10lineB := by
  refine ⟨by decide, by decide, by decide, by decide, ?_⟩
  exact c10_unused_fields c10lineA c10lineB (by decide) (by decide) (by decide) (by decide)
    (by decide) (by decide) (by decide)
